import Mathlib

/-!
Verification development for the zod-time-string library
(src/lib/index.ts).  The library parses human-readable duration strings
such as "5m", "1.5d" or "-100ms" into an integer count of milliseconds
and layers chainable sign/range constraints and customizable error
messages on top.

Modelling conventions:
* JavaScript numbers are idealized as exact rationals (the numeric
  grammar only produces finite decimal literals, and every millisecond
  value of the program is a finite decimal).  The final
  `parseInt(ms.toString())` step of the source is embedded as
  `jsParseInt`: `Number.prototype.toString` renders a value in plain
  decimal notation when its magnitude is zero or lies in
  [10^-6, 10^21), where parseInt reads the integer part (toward-zero
  truncation); outside that range toString uses exponential notation
  (a one-digit mantissa integer part, as in "5e-7" or "3.1536e+21"),
  where parseInt reads only the leading significant digit, with the
  sign.
* The regular expressions of the source (FULL_PATTERN, the per-unit alias
  patterns, and the secondary "number followed by letters" pattern) are
  embedded as direct string recognizers.  Because the character classes
  involved (sign/dot/digits, whitespace, ASCII letters) are pairwise
  disjoint and every unit alias starts with a letter, the anchored regex
  match succeeds exactly when the maximal leading run of numeric
  characters is a valid numeric literal and the remaining text is
  whitespace followed by an (optional) alias token; the embedding splits
  the input that way.
* Whitespace and case folding are modelled over ASCII, which covers the
  whole grammar of the library.
-/

namespace ZodTimeString

/-! ### Character classes (the regex character classes of the source) -/

/-- Decimal digit, the `\d` class. -/
def isDigitChar (c : Char) : Bool := 48 ≤ c.toNat && c.toNat ≤ 57

/-- Whitespace, the `\s` class and the characters removed by `trim`
(ASCII part: tab, lf, vt, ff, cr, space). -/
def isWsChar (c : Char) : Bool := c.toNat == 32 || (9 ≤ c.toNat && c.toNat ≤ 13)

/-- A character that can occur in the numeric literal
`(-?(?:\d+)?\.?\d+)`: sign, dot or digit. -/
def isNumChar (c : Char) : Bool := c.toNat == 45 || c.toNat == 46 || isDigitChar c

/-- Uppercase ASCII letter. -/
def isUpperChar (c : Char) : Bool := 65 ≤ c.toNat && c.toNat ≤ 90

/-- Lowercase ASCII letter. -/
def isLowerChar (c : Char) : Bool := 97 ≤ c.toNat && c.toNat ≤ 122

/-- The `[a-zA-Z]` class of the secondary pattern. -/
def isAsciiLetter (c : Char) : Bool := isUpperChar c || isLowerChar c

/-- ASCII case folding of one character (`toLowerCase` restricted to the
ASCII range, which covers every alias of the registry). -/
def toLowerChar (c : Char) : Char :=
  if isUpperChar c then Char.ofNat (c.toNat + 32) else c

/-- ASCII case folding of a string, embedding `unitStr.toLowerCase()`. -/
def toLowerStr (s : String) : String := ⟨s.data.map toLowerChar⟩

/-- List-level trimming used by `jsTrim`. -/
def trimList (cs : List Char) : List Char :=
  ((cs.dropWhile isWsChar).reverse.dropWhile isWsChar).reverse

/-- Embedding of JavaScript `String.prototype.trim` (`v.value.trim()`). -/
def jsTrim (s : String) : String := ⟨trimList s.data⟩

/-! ### Unit registry (TimeUnit, TIME_UNIT_TO_MS, TIME_UNIT_PATTERNS) -/

/-- The 7 canonical time units, `TimeUnit` of the source with canonical
short codes ms, s, m, h, d, mo, y. -/
inductive TimeUnit where
  | ms
  | s
  | m
  | h
  | d
  | mo
  | y
deriving DecidableEq, Repr, Fintype

/-- Millisecond multiplier of each unit, `TIME_UNIT_TO_MS`. -/
def TIME_UNIT_TO_MS : TimeUnit → Rat
  | .ms => 1
  | .s => 1000
  | .m => 60 * 1000
  | .h => 60 * 60 * 1000
  | .d => 24 * 60 * 60 * 1000
  | .mo => 30 * 24 * 60 * 60 * 1000
  | .y => 365 * 24 * 60 * 60 * 1000

/-- One alternative of a unit alias pattern: a literal stem followed by an
optional final character, e.g. `days?` is the stem "day" with optional
final character s, `day?` is the stem "da" with optional y. -/
def altAccepts (alt : String × Option Char) (s : String) : Bool :=
  s == alt.1 ||
    (match alt.2 with
     | some c => s == alt.1.push c
     | none => false)

/-- The alias alternation of each unit, `TIME_UNIT_PATTERNS`:
ms: `milliseconds?|millisecond?|msecs?|msec?|ms`;
s: `seconds?|second?|secs?|sec?|s`;
m: `minutes?|minute?|mins?|min?|m`;
h: `hours?|hour?|hrs?|hr?|h`;
d: `days?|day?|d`;
mo: `months?|month?|mo|mth`;
y: `years?|year?|yrs?|yr?|y`. -/
def unitAlts : TimeUnit → List (String × Option Char)
  | .ms => [("millisecond", some 's'), ("millisecon", some 'd'),
            ("msec", some 's'), ("mse", some 'c'), ("ms", none)]
  | .s => [("second", some 's'), ("secon", some 'd'),
           ("sec", some 's'), ("se", some 'c'), ("s", none)]
  | .m => [("minute", some 's'), ("minut", some 'e'),
           ("min", some 's'), ("mi", some 'n'), ("m", none)]
  | .h => [("hour", some 's'), ("hou", some 'r'),
           ("hr", some 's'), ("h", some 'r'), ("h", none)]
  | .d => [("day", some 's'), ("da", some 'y'), ("d", none)]
  | .mo => [("month", some 's'), ("mont", some 'h'),
            ("mo", none), ("mth", none)]
  | .y => [("year", some 's'), ("yea", some 'r'),
           ("yr", some 's'), ("y", some 'r'), ("y", none)]

/-- Whole-string match of a lowercased token against one unit's
alternation, the per-unit regex `^(pattern)$` with the `i` flag. -/
def unitPatternAccepts (unit : TimeUnit) (s : String) : Bool :=
  (unitAlts unit).any (fun alt => altAccepts alt s)

/-- Iteration order of `Object.keys(TIME_UNIT_PATTERNS)`: the literal
insertion order of the source table. -/
def timeUnitKeys : List TimeUnit :=
  [.ms, .s, .m, .h, .d, .mo, .y]

/-- Embedding of `getTimeUnit`: lowercase the token, then return the
first unit (in key order) whose alias pattern matches it entirely. -/
def getTimeUnit (unitStr : String) : Option TimeUnit :=
  let lowerUnit := toLowerStr unitStr
  timeUnitKeys.find? (fun unit => unitPatternAccepts unit lowerUnit)

/-! ### The numeric literal grammar `(-?(?:\d+)?\.?\d+)` -/

/-- Unsigned part of the numeric literal: digits, or digits (possibly
none) followed by a dot and at least one digit. -/
def isUnsignedNumLit (cs : List Char) : Bool :=
  let intPart := cs.takeWhile isDigitChar
  match cs.dropWhile isDigitChar with
  | [] => !intPart.isEmpty
  | '.' :: frac => !frac.isEmpty && frac.all isDigitChar
  | _ => false

/-- Full numeric literal `-?(?:\d+)?\.?\d+`. -/
def isNumLit (cs : List Char) : Bool :=
  match cs with
  | '-' :: rest => isUnsignedNumLit rest
  | _ => isUnsignedNumLit cs

/-- Numeric value of a digit run. -/
def digitsToNat (ds : List Char) : Nat :=
  ds.foldl (fun n c => 10 * n + (c.toNat - 48)) 0

/-- Exact rational value of an unsigned numeric literal. -/
def ratOfUnsigned (cs : List Char) : Rat :=
  let intPart := cs.takeWhile isDigitChar
  match cs.dropWhile isDigitChar with
  | '.' :: frac =>
      (digitsToNat intPart : Rat) + (digitsToNat frac : Rat) / ((10 : Rat) ^ frac.length)
  | _ => (digitsToNat intPart : Rat)

/-- Embedding of `parseFloat(valueStr)` on a string produced by the
numeric-literal grammar: the exact decimal value. -/
def ratOfNumLit (s : String) : Rat :=
  match s.data with
  | '-' :: rest => - ratOfUnsigned rest
  | _ => ratOfUnsigned s.data

/-- Toward-zero truncation of a rational: the integer part of the
decimal digits with the sign reattached.  This is what
`parseInt(x.toString())` computes in the plain-decimal rendering range
of toString (see `jsParseInt`). -/
def ratTrunc (q : Rat) : Int :=
  if 0 ≤ q.num then ((q.num.natAbs / q.den : Nat) : Int)
  else -((q.num.natAbs / q.den : Nat) : Int)

/-- Fuel-driven digit count of a natural number (the fuel is the number
itself, which always suffices). -/
def digitCountAux : Nat → Nat → Nat
  | 0, _ => 0
  | fuel + 1, n => if n < 10 then 1 else digitCountAux fuel (n / 10) + 1

/-- Number of decimal digits of a natural number. -/
def digitCount (n : Nat) : Nat := digitCountAux n n

/-- Fuel-driven leading decimal digit of a natural number. -/
def leadDigitAux : Nat → Nat → Nat
  | 0, n => n
  | fuel + 1, n => if n < 10 then n else leadDigitAux fuel (n / 10)

/-- Leading decimal digit of a natural number. -/
def leadDigitNat (n : Nat) : Nat := leadDigitAux n n

/-- Embedding of `parseInt(x.toString())` for an exact rational value.
`Number.prototype.toString` uses plain decimal notation exactly when
the value is zero or its magnitude lies in [10^-6, 10^21); there
parseInt reads the integer part, i.e. the toward-zero truncation.  For
magnitudes below 10^-6 or at or above 10^21, toString produces
exponential notation whose mantissa has a single digit before the
decimal point, so parseInt returns just the leading significant digit
of the value, with the sign.  The magnitude tests |x| < 10^-6 and
|x| >= 10^21 are expressed on the numerator and denominator; for the
small case the leading significant digit of n/d is the leading digit of
the natural number n * 10^(digitCount d) / d. -/
def jsParseInt (q : Rat) : Int :=
  if q.num = 0 then 0
  else if q.num.natAbs * 10 ^ 6 < q.den then
    if 0 ≤ q.num then (leadDigitNat (q.num.natAbs * 10 ^ digitCount q.den / q.den) : Int)
    else -(leadDigitNat (q.num.natAbs * 10 ^ digitCount q.den / q.den) : Int)
  else if 10 ^ 21 * q.den ≤ q.num.natAbs then
    if 0 ≤ q.num then (leadDigitNat (q.num.natAbs / q.den) : Int)
    else -(leadDigitNat (q.num.natAbs / q.den) : Int)
  else
    if 0 ≤ q.num then ((q.num.natAbs / q.den : Nat) : Int)
    else -((q.num.natAbs / q.den : Nat) : Int)

/-! ### The two compiled patterns -/

/-- Embedding of `FULL_PATTERN.exec(value)` on the (already trimmed)
input: `^\s*(-?(?:\d+)?\.?\d+)\s*(UNITS_PATTERN)?\s*$` with the `i`
flag.  Returns the two capture groups: the numeric literal and the
optional unit token.  The anchored match succeeds exactly when the
maximal leading run of numeric characters is a valid literal and the
rest of the input is whitespace followed by a token of the combined unit
alternation (or nothing): a shorter literal prefix would leave a
sign/dot/digit in front of the unit group, which no alternative of the
(letters-only) alternation and neither `\s*` nor `$` can consume. -/
def fullPatternExec (value : String) : Option (String × Option String) :=
  let cs := value.data
  let numRun := cs.takeWhile isNumChar
  let rest := cs.dropWhile isNumChar
  let unitRun := rest.dropWhile isWsChar
  if isNumLit numRun then
    if unitRun.isEmpty then some (⟨numRun⟩, none)
    else if (getTimeUnit ⟨unitRun⟩).isSome then some (⟨numRun⟩, some ⟨unitRun⟩)
    else none
  else none

/-- Embedding of the secondary pattern
`^(-?(?:\d+)?\.?\d+)\s*([a-zA-Z]+)$` (`possibleUnitMatch`): a numeric
literal, whitespace, then one or more letters reaching the end of the
input.  Returns the two capture groups. -/
def possibleUnitExec (value : String) : Option (String × String) :=
  let cs := value.data
  let numRun := cs.takeWhile isNumChar
  let rest := cs.dropWhile isNumChar
  let letters := rest.dropWhile isWsChar
  if isNumLit numRun && !letters.isEmpty && letters.all isAsciiLetter then
    some (⟨numRun⟩, ⟨letters⟩)
  else none

/-! ### Error specifications and message resolution -/

/-- The accepted shapes of an error message specification:
`string | ((invalid: string) => string) | { message: string | fn }`. -/
inductive ErrorParam where
  | str (s : String)
  | fn (f : String → String)
  | objStr (message : String)
  | objFn (message : String → String)

/-- The `TimeStringOptions` record: the three optional base-failure
error specifications. -/
structure Options where
  invalidFormatError : Option ErrorParam
  invalidValueError : Option ErrorParam
  invalidUnitError : Option ErrorParam

/-- Options of the pre-built base schema (`createBaseTimeStringSchema()`
with no argument). -/
def defaultOptions : Options := ⟨none, none, none⟩

/-- Embedding of `resolveErrorMessage`.  The JavaScript guard
`if (!errorOption) return defaultMessage` is truthy-based, so an
empty-string literal also falls back to the default message. -/
def resolveErrorMessage (errorOption : Option ErrorParam)
    (defaultMessage invalidValue : String) : String :=
  match errorOption with
  | none => defaultMessage
  | some (.str s) => if s = "" then defaultMessage else s
  | some (.fn f) => f invalidValue
  | some (.objFn f) => f invalidValue
  | some (.objStr m) => m

/-- JavaScript truthiness of an error specification: among the accepted
shapes only the empty string literal is falsy. -/
def errorParamTruthy : ErrorParam → Bool
  | .str s => !(s == "")
  | .fn _ => true
  | .objStr _ => true
  | .objFn _ => true

/-- Truthiness of an optional error specification, embedding the guard
`options?.invalidUnitError`: absent or falsy yields false. -/
def optionTruthy : Option ErrorParam → Bool
  | none => false
  | some e => errorParamTruthy e

/-! ### The base parsing step (createBaseTimeStringSchema) -/

/-- The failure categories of the library: the three base kinds
(format, value, unit) and constraint failures of chained refinements. -/
inductive FailKind where
  | format
  | value
  | unit
  | constraint
deriving DecidableEq, Repr

/-- A single reported issue: its category and the resolved message. -/
structure Issue where
  kind : FailKind
  message : String
deriving DecidableEq, Repr

/-- Embedding of the `.check` stage of `createBaseTimeStringSchema`:
trim, run FULL_PATTERN, classify failures (the unit classification of a
failed primary match requires `options.invalidUnitError` to be present
and truthy, mirroring `possibleUnitMatch && options?.invalidUnitError`,
where an empty-string spec is falsy), and on success compute the
millisecond value `numValue * TIME_UNIT_TO_MS[unit]` (or the bare
magnitude when no unit token was captured). -/
def normalizeCheck (options : Options) (input : String) : Except Issue Rat :=
  let value := jsTrim input
  match fullPatternExec value with
  | none =>
    match possibleUnitExec value with
    | some (_, unitString) =>
      if optionTruthy options.invalidUnitError then
        .error ⟨.unit, resolveErrorMessage options.invalidUnitError
          ("Invalid time unit: " ++ unitString) unitString⟩
      else
        .error ⟨.format, resolveErrorMessage options.invalidFormatError
          ("Invalid time format: " ++ value) value⟩
    | none =>
      .error ⟨.format, resolveErrorMessage options.invalidFormatError
        ("Invalid time format: " ++ value) value⟩
  | some (valueStr, unitOpt) =>
    if valueStr = "" then
      .error ⟨.value, resolveErrorMessage options.invalidValueError
        ("Invalid time value: " ++ value) value⟩
    else
      let numValue := ratOfNumLit valueStr
      match unitOpt with
      | none => .ok numValue
      | some unitStr =>
        match getTimeUnit unitStr with
        | none =>
          .error ⟨.unit, resolveErrorMessage options.invalidUnitError
            ("Invalid time unit: " ++ unitStr) unitStr⟩
        | some unit => .ok (numValue * TIME_UNIT_TO_MS unit)

/-- Embedding of the full base schema: the `.check` stage followed by
the `.transform((v) => parseInt(v))` stage, with parseInt applied to
the toString rendering of the millisecond value (see `jsParseInt`). -/
def parseTimeString (options : Options) (input : String) : Except Issue Int :=
  (normalizeCheck options input).map jsParseInt

/-! ### Constraint chaining (createRefinementWithMessage, createTimeStringSchema) -/

/-- One chained refinement: its check over the parsed value and the
message attached to the refinement. -/
structure Constraint where
  check : Int → Bool
  message : String

/-- A validator value: the base-failure options of the parsing step plus
the ordered sequence of chained constraints.  `createTimeStringSchema`
wraps a schema value; chaining methods derive new values from it. -/
structure Validator where
  options : Options
  constraints : List Constraint

/-- The message `createRefinementWithMessage` attaches to the
refinement.  A string parameter is used verbatim; an object with a
string message is used verbatim; a function parameter (bare or in the
message field of an object) is only stored as `customMessageFn` in the
refinement params and is never invoked, so the default message is what
the refinement reports. -/
def constraintMessage (params : Option ErrorParam) (defaultMessage : String) : String :=
  match params with
  | some (.str s) => s
  | some (.fn _) => defaultMessage
  | some (.objFn _) => defaultMessage
  | some (.objStr m) => m
  | none => defaultMessage

/-- Modelled from the spec: the check-execution engine of the external
schema library (zod) is not part of this repository.  Per the contract
of sections 4.4 and 7 of the specification, a run first performs the
base parsing step; a base failure is reported alone and no constraint is
evaluated; otherwise the chained constraints run strictly in chaining
order and the first failing one reports its message and stops
(fail-fast), so a failed run carries exactly one issue. -/
def runValidator (v : Validator) (input : String) : Except Issue Int :=
  match parseTimeString v.options input with
  | .error i => .error i
  | .ok n =>
    match v.constraints.find? (fun c => ! c.check n) with
    | some c => .error ⟨.constraint, c.message⟩
    | none => .ok n

/-- The `positive` chaining method: appends the check `val > 0` with
default message "Value must be positive". -/
def vPositive (v : Validator) (params : Option ErrorParam) : Validator :=
  ⟨v.options, v.constraints ++
    [⟨fun val => decide (val > 0), constraintMessage params "Value must be positive"⟩]⟩

/-- The `negative` chaining method: appends the check `val < 0` with
default message "Value must be negative". -/
def vNegative (v : Validator) (params : Option ErrorParam) : Validator :=
  ⟨v.options, v.constraints ++
    [⟨fun val => decide (val < 0), constraintMessage params "Value must be negative"⟩]⟩

/-- The `min` chaining method: appends the check `val >= minValue` with
a default message interpolating the bound. -/
def vMin (v : Validator) (minValue : Int) (params : Option ErrorParam) : Validator :=
  ⟨v.options, v.constraints ++
    [⟨fun val => decide (val ≥ minValue),
      constraintMessage params ("Value must be greater than or equal to " ++ toString minValue)⟩]⟩

/-- The `max` chaining method: appends the check `val <= maxValue` with
a default message interpolating the bound. -/
def vMax (v : Validator) (maxValue : Int) (params : Option ErrorParam) : Validator :=
  ⟨v.options, v.constraints ++
    [⟨fun val => decide (val ≤ maxValue),
      constraintMessage params ("Value must be less than or equal to " ++ toString maxValue)⟩]⟩

/-- The `withErrorMessages` method: rebuilds from
`createBaseTimeStringSchema(customOptions)`, ignoring the receiver, so
the result is a base validator with the custom options and zero
constraints. -/
def withErrorMessages (_v : Validator) (customOptions : Options) : Validator :=
  ⟨customOptions, []⟩

/-- The exported pre-built validator `timeStringSchema`: default
messages, zero constraints. -/
def timeStringSchema : Validator := ⟨defaultOptions, []⟩

/-- The alias table documented in the README ("Supported Time Formats"
unit table). -/
def documentedAliases : TimeUnit → List String
  | .ms => ["ms", "msec", "msecs", "millisecond", "milliseconds"]
  | .s => ["s", "sec", "secs", "second", "seconds"]
  | .m => ["m", "min", "mins", "minute", "minutes"]
  | .h => ["h", "hr", "hrs", "hour", "hours"]
  | .d => ["d", "day", "days"]
  | .mo => ["mo", "mth", "month", "months"]
  | .y => ["y", "yr", "yrs", "year", "years"]

/-- The validator `a` of the immutability scenario: `base.min(100)`. -/
def aVal : Validator := vMin timeStringSchema 100 none

/-- The validator `b` of the immutability scenario: `a.max(1)`. -/
def bVal : Validator := vMax aVal 1 none

/-! ### Helper lemmas: list scanning -/

theorem takeWhile_append_all {p : Char → Bool} {xs ys : List Char}
    (h : ∀ c ∈ xs, p c = true) :
    (xs ++ ys).takeWhile p = xs ++ ys.takeWhile p := by
  induction xs with
  | nil => simp
  | cons a t ih =>
    simp [List.takeWhile_cons, h a (List.mem_cons_self a t),
      ih fun c hc => h c (List.mem_cons_of_mem a hc)]

theorem dropWhile_append_all {p : Char → Bool} {xs ys : List Char}
    (h : ∀ c ∈ xs, p c = true) :
    (xs ++ ys).dropWhile p = ys.dropWhile p := by
  induction xs with
  | nil => simp
  | cons a t ih =>
    simp [List.dropWhile_cons, h a (List.mem_cons_self a t),
      ih fun c hc => h c (List.mem_cons_of_mem a hc)]

/-! ### Helper lemmas: character classes -/

theorem not_isNumChar_of_isWsChar {c : Char} (h : isWsChar c = true) :
    isNumChar c = false := by
  simp only [isWsChar, Bool.or_eq_true, beq_iff_eq, Bool.and_eq_true,
    decide_eq_true_eq] at h
  simp only [isNumChar, isDigitChar, Bool.or_eq_false_iff, beq_eq_false_iff_ne,
    ne_eq, Bool.and_eq_false_iff, decide_eq_false_iff_not]
  omega

theorem not_isWsChar_of_isNumChar {c : Char} (h : isNumChar c = true) :
    isWsChar c = false := by
  simp only [isNumChar, isDigitChar, Bool.or_eq_true, beq_iff_eq,
    Bool.and_eq_true, decide_eq_true_eq] at h
  simp only [isWsChar, Bool.or_eq_false_iff, beq_eq_false_iff_ne, ne_eq,
    Bool.and_eq_false_iff, decide_eq_false_iff_not]
  omega

theorem isDigitChar_isNumChar {c : Char} (h : isDigitChar c = true) :
    isNumChar c = true := by
  simp [isNumChar, h]

/-- A character whose ASCII lowercase is a lowercase letter is itself a
letter, hence neither whitespace nor part of the numeric literal class. -/
theorem lower_letter_char {c : Char} (h : isLowerChar (toLowerChar c) = true) :
    isWsChar c = false ∧ isNumChar c = false := by
  by_cases hu : isUpperChar c = true
  · simp only [isUpperChar, Bool.and_eq_true, decide_eq_true_eq] at hu
    constructor
    · simp only [isWsChar, Bool.or_eq_false_iff, beq_eq_false_iff_ne, ne_eq,
        Bool.and_eq_false_iff, decide_eq_false_iff_not]
      omega
    · simp only [isNumChar, isDigitChar, Bool.or_eq_false_iff,
        beq_eq_false_iff_ne, ne_eq, Bool.and_eq_false_iff,
        decide_eq_false_iff_not]
      omega
  · have hc : toLowerChar c = c := by
      simp [toLowerChar, Bool.eq_false_iff.mpr hu]
    rw [hc] at h
    simp only [isLowerChar, Bool.and_eq_true, decide_eq_true_eq] at h
    constructor
    · simp only [isWsChar, Bool.or_eq_false_iff, beq_eq_false_iff_ne, ne_eq,
        Bool.and_eq_false_iff, decide_eq_false_iff_not]
      omega
    · simp only [isNumChar, isDigitChar, Bool.or_eq_false_iff,
        beq_eq_false_iff_ne, ne_eq, Bool.and_eq_false_iff,
        decide_eq_false_iff_not]
      omega

/-! ### Helper lemmas: the numeric literal -/

theorem isUnsignedNumLit_all {cs : List Char} (h : isUnsignedNumLit cs = true) :
    cs ≠ [] ∧ ∀ c ∈ cs, isNumChar c = true := by
  have hsplit := List.takeWhile_append_dropWhile isDigitChar cs
  unfold isUnsignedNumLit at h
  split at h
  · next heq =>
    rw [heq, List.append_nil] at hsplit
    simp only [Bool.not_eq_true', List.isEmpty_eq_false_iff_exists_mem] at h
    constructor
    · intro hnil
      subst hnil
      obtain ⟨x, hx⟩ := h
      simp at hx
    · intro c hc
      rw [← hsplit] at hc
      exact isDigitChar_isNumChar (List.mem_takeWhile_imp hc)
  · next frac heq =>
    simp only [Bool.and_eq_true, Bool.not_eq_true',
      List.isEmpty_eq_false_iff_exists_mem, List.all_eq_true] at h
    rw [heq] at hsplit
    constructor
    · intro hnil
      rw [hnil, List.append_eq_nil] at hsplit
      exact absurd hsplit.2 (by simp)
    · intro c hc
      rw [← hsplit] at hc
      rcases List.mem_append.mp hc with hc1 | hc2
      · exact isDigitChar_isNumChar (List.mem_takeWhile_imp hc1)
      · rcases List.mem_cons.mp hc2 with hdot | hfrac
        · rw [hdot]; rfl
        · exact isDigitChar_isNumChar (h.2 c hfrac)
  · exact absurd h (by simp)

theorem isNumLit_all {cs : List Char} (h : isNumLit cs = true) :
    cs ≠ [] ∧ ∀ c ∈ cs, isNumChar c = true := by
  unfold isNumLit at h
  split at h
  · next rest =>
    obtain ⟨_, hall⟩ := isUnsignedNumLit_all h
    refine ⟨by simp, ?_⟩
    intro c hc
    rcases List.mem_cons.mp hc with hminus | hrest
    · rw [hminus]; rfl
    · exact hall c hrest
  · exact isUnsignedNumLit_all h

/-! ### Helper lemmas: trimming and pattern splitting -/

theorem trimList_eq {w1 mid w3 : List Char}
    (hw1 : ∀ c ∈ w1, isWsChar c = true)
    (hw3 : ∀ c ∈ w3, isWsChar c = true)
    (hhead : ∃ c t, mid = c :: t ∧ isWsChar c = false)
    (hlast : ∃ c t, mid.reverse = c :: t ∧ isWsChar c = false) :
    trimList (w1 ++ mid ++ w3) = mid := by
  obtain ⟨c, t, hmid, hc⟩ := hhead
  obtain ⟨c2, t2, hrev, hc2⟩ := hlast
  have h1 : List.dropWhile isWsChar (mid ++ w3) = mid ++ w3 := by
    rw [hmid, List.cons_append, List.dropWhile_cons_of_neg (by simp [hc])]
  have h2 : List.dropWhile isWsChar mid.reverse = mid.reverse := by
    rw [hrev, List.dropWhile_cons_of_neg (by simp [hc2])]
  unfold trimList
  rw [List.append_assoc, dropWhile_append_all hw1, h1, List.reverse_append,
    dropWhile_append_all (fun x hx => hw3 x (List.mem_reverse.mp hx)), h2,
    List.reverse_reverse]

theorem fullPatternExec_split {v w2 u : List Char}
    (hv : isNumLit v = true)
    (hw2 : ∀ c ∈ w2, isWsChar c = true)
    (hu : ∃ c t, u = c :: t ∧ isWsChar c = false ∧ isNumChar c = false)
    (hmatch : (getTimeUnit ⟨u⟩).isSome = true) :
    fullPatternExec ⟨v ++ w2 ++ u⟩ = some (⟨v⟩, some ⟨u⟩) := by
  obtain ⟨c, t, hu_eq, hc_ws, hc_num⟩ := hu
  obtain ⟨hv_ne, hv_all⟩ := isNumLit_all hv
  have htail : ∃ d r, w2 ++ u = d :: r ∧ isNumChar d = false := by
    cases hw : w2 with
    | nil => exact ⟨c, t, by simp [hu_eq], hc_num⟩
    | cons a l =>
      have ha : a ∈ w2 := by rw [hw]; exact List.mem_cons_self a l
      exact ⟨a, l ++ u, by simp, not_isNumChar_of_isWsChar (hw2 a ha)⟩
  obtain ⟨d, r, htail_eq, hd⟩ := htail
  have htake : (v ++ w2 ++ u).takeWhile isNumChar = v := by
    rw [List.append_assoc, takeWhile_append_all hv_all, htail_eq,
      List.takeWhile_cons_of_neg (by simp [hd]), List.append_nil]
  have hdrop : (v ++ w2 ++ u).dropWhile isNumChar = w2 ++ u := by
    rw [List.append_assoc, dropWhile_append_all hv_all, htail_eq,
      List.dropWhile_cons_of_neg (by simp [hd])]
  have hdrop2 : (w2 ++ u).dropWhile isWsChar = u := by
    rw [dropWhile_append_all hw2, hu_eq,
      List.dropWhile_cons_of_neg (by simp [hc_ws])]
  have hempty : u.isEmpty = false := by rw [hu_eq]; rfl
  unfold fullPatternExec
  simp only [htake, hdrop, hdrop2]
  rw [if_pos hv, if_neg (by simp [hempty]), if_pos hmatch]

/-! ### Helper lemmas: alias table facts (checked by evaluation) -/

theorem documented_alias_resolves :
    ∀ unit : TimeUnit, ∀ al ∈ documentedAliases unit,
      timeUnitKeys.find? (fun u2 => unitPatternAccepts u2 al) = some unit := by
  decide

theorem documented_alias_shape :
    ∀ unit : TimeUnit, ∀ al ∈ documentedAliases unit,
      al.data ≠ [] ∧ al.data.all isLowerChar = true := by
  decide

/-! ### Helper lemmas: case folding of a unit token -/

theorem aUp_facts {aUp al : String}
    (hlow : toLowerStr aUp = al)
    (hne : al.data ≠ [])
    (hall : al.data.all isLowerChar = true) :
    (∃ c t, aUp.data = c :: t ∧ isWsChar c = false ∧ isNumChar c = false)
    ∧ (∃ c t, aUp.data.reverse = c :: t ∧ isWsChar c = false) := by
  have hmap : aUp.data.map toLowerChar = al.data := by
    rw [← hlow]; rfl
  have hallmem : ∀ x ∈ al.data, isLowerChar x = true := List.all_eq_true.mp hall
  constructor
  · cases haUp : aUp.data with
    | nil =>
      rw [haUp] at hmap
      exact absurd hmap.symm hne
    | cons c0 t0 =>
      rw [haUp, List.map_cons] at hmap
      have hmem : toLowerChar c0 ∈ al.data := by
        rw [← hmap]; exact List.mem_cons_self _ _
      obtain ⟨h1, h2⟩ := lower_letter_char (hallmem _ hmem)
      exact ⟨c0, t0, rfl, h1, h2⟩
  · have hmaprev : aUp.data.reverse.map toLowerChar = al.data.reverse := by
      rw [List.map_reverse, hmap]
    cases haUp : aUp.data.reverse with
    | nil =>
      rw [haUp] at hmaprev
      have : al.data = [] := by
        have := congrArg List.reverse hmaprev
        simpa using this.symm
      exact absurd this hne
    | cons c0 t0 =>
      rw [haUp, List.map_cons] at hmaprev
      have hmem : toLowerChar c0 ∈ al.data := by
        rw [← List.mem_reverse, ← hmaprev]
        exact List.mem_cons_self _ _
      obtain ⟨h1, _⟩ := lower_letter_char (hallmem _ hmem)
      exact ⟨c0, t0, rfl, h1⟩

/-! ### Helper lemmas: toward-zero truncation -/

theorem ratTrunc_of_nonneg {q : Rat} (h : 0 ≤ q) : ratTrunc q = ⌊q⌋ := by
  have hnum : 0 ≤ q.num := Rat.num_nonneg.mpr h
  have habs : (q.num.natAbs : Int) = q.num := Int.natAbs_of_nonneg hnum
  have hdm := Nat.div_add_mod q.num.natAbs q.den
  have hmlt := Nat.mod_lt q.num.natAbs q.pos
  have hdenQ : (0 : ℚ) < (q.den : ℚ) := by exact_mod_cast q.pos
  have key : q * (q.den : ℚ) = (q.num : ℚ) := Rat.mul_den_eq_num q
  unfold ratTrunc
  rw [if_pos hnum]
  symm
  rw [Int.floor_eq_iff]
  constructor
  · rw [← mul_le_mul_right hdenQ, key]
    have hint : ((q.num.natAbs / q.den : Nat) : Int) * (q.den : Int) ≤ q.num := by
      rw [mul_comm]
      omega
    exact_mod_cast hint
  · rw [← mul_lt_mul_right hdenQ, key]
    have hint : q.num < (((q.num.natAbs / q.den : Nat) : Int) + 1) * (q.den : Int) := by
      rw [add_mul, one_mul, mul_comm]
      omega
    exact_mod_cast hint

theorem ratTrunc_neg (q : Rat) : ratTrunc (-q) = -ratTrunc q := by
  unfold ratTrunc
  rw [Rat.neg_num, Rat.neg_den]
  rcases lt_trichotomy q.num 0 with h | h | h
  · rw [if_pos (by omega), if_neg (by omega), Int.natAbs_neg, neg_neg]
  · rw [if_pos (by omega), if_pos (by omega), h]
    simp
  · rw [if_neg (by omega), if_pos (by omega), Int.natAbs_neg]

theorem ratTrunc_of_nonpos {q : Rat} (h : q ≤ 0) : ratTrunc q = ⌈q⌉ := by
  have h2 : (0 : ℚ) ≤ -q := by linarith
  have h3 := ratTrunc_of_nonneg h2
  rw [ratTrunc_neg, Int.floor_neg] at h3
  omega

/-! ### Helper lemmas: the plain-notation range of jsParseInt -/

theorem jsParseInt_eq_ratTrunc {q : Rat} (h1 : |q| < 10 ^ 21)
    (h2 : q = 0 ∨ 1 / 10 ^ 6 ≤ |q|) : jsParseInt q = ratTrunc q := by
  by_cases h0 : q.num = 0
  · unfold jsParseInt ratTrunc
    rw [if_pos h0, if_pos (le_of_eq h0.symm), h0]
    simp
  · have hdQ : (0 : ℚ) < (q.den : ℚ) := by exact_mod_cast q.pos
    have habs : |q| * (q.den : ℚ) = ((q.num.natAbs : Nat) : ℚ) := by
      have hmd := Rat.mul_den_eq_num q
      have habs2 : |q| * (q.den : ℚ) = |q * (q.den : ℚ)| := by
        rw [abs_mul, abs_of_pos hdQ]
      rw [habs2, hmd, Int.cast_natAbs, Int.cast_abs]
    have h2' : 1 / 10 ^ 6 ≤ |q| := by
      rcases h2 with h2 | h2
      · exact absurd (Rat.num_eq_zero.mpr h2) h0
      · exact h2
    have hsm : ¬ (q.num.natAbs * 10 ^ 6 < q.den) := by
      intro hcon
      have hc0 : ((q.num.natAbs : Nat) : ℚ) * 10 ^ 6 < (q.den : ℚ) := by
        exact_mod_cast hcon
      have hc2 : (|q| * 10 ^ 6) * (q.den : ℚ) < 1 * (q.den : ℚ) := by
        calc (|q| * 10 ^ 6) * (q.den : ℚ) = |q| * (q.den : ℚ) * 10 ^ 6 := by ring
        _ = ((q.num.natAbs : Nat) : ℚ) * 10 ^ 6 := by rw [habs]
        _ < (q.den : ℚ) := hc0
        _ = 1 * (q.den : ℚ) := by ring
      have hc3 : |q| * 10 ^ 6 < 1 := (mul_lt_mul_right hdQ).mp hc2
      have hc4 : |q| < 1 / 10 ^ 6 := by
        rw [lt_div_iff₀ (by norm_num : (0 : ℚ) < 10 ^ 6)]
        linarith
      linarith
    have hbg : ¬ (10 ^ 21 * q.den ≤ q.num.natAbs) := by
      intro hcon
      have hc0 : (10 : ℚ) ^ 21 * (q.den : ℚ) ≤ ((q.num.natAbs : Nat) : ℚ) := by
        exact_mod_cast hcon
      rw [← habs] at hc0
      have hc1 : (10 : ℚ) ^ 21 ≤ |q| := (mul_le_mul_right hdQ).mp hc0
      linarith
    unfold jsParseInt ratTrunc
    rw [if_neg h0, if_neg hsm, if_neg hbg]

theorem jsParseInt_intCast (n : Int) (h : n.natAbs < 10 ^ 21) :
    jsParseInt ((n : Int) : ℚ) = n := by
  unfold jsParseInt
  rw [Rat.num_intCast, Rat.den_intCast]
  by_cases h0 : n = 0
  · rw [if_pos h0, h0]
  · rw [if_neg h0, if_neg (by omega), if_neg (by omega)]
    rcases le_or_lt 0 n with hs | hs
    · rw [if_pos hs]
      simp only [Nat.div_one]
      omega
    · rw [if_neg (by omega)]
      simp only [Nat.div_one]
      omega

theorem jsParseInt_eq_of_eq_intCast {q : Rat} {n : Int}
    (hq : q = ((n : Int) : ℚ)) (h : n.natAbs < 10 ^ 21) : jsParseInt q = n := by
  rw [hq]
  exact jsParseInt_intCast n h

theorem abs_intCast_bounds {n : Int} (h0 : n ≠ 0) (hlt : n.natAbs < 10 ^ 21) :
    |((n : Int) : ℚ)| < 10 ^ 21 ∧ 1 / 10 ^ 6 ≤ |((n : Int) : ℚ)| := by
  have habs : |((n : Int) : ℚ)| = ((n.natAbs : Nat) : ℚ) := by
    rw [Int.cast_natAbs, Int.cast_abs]
  constructor
  · rw [habs]
    exact_mod_cast hlt
  · rw [habs]
    have h1 : 1 ≤ n.natAbs := by omega
    calc (1 : ℚ) / 10 ^ 6 ≤ 1 := by norm_num
    _ ≤ ((n.natAbs : Nat) : ℚ) := by exact_mod_cast h1

/-! ### Helper lemmas: running a validator -/

theorem find?_all_none {l : List Constraint} {n : Int}
    (h : ∀ c ∈ l, c.check n = true) :
    l.find? (fun c => ! c.check n) = none :=
  List.find?_eq_none.mpr (by intro c hc; simp [h c hc])

theorem runValidator_append_single (v : Validator) (s : String) (x : Int)
    (chk : Int → Bool) (msg : String)
    (hp : parseTimeString v.options s = .ok x)
    (hall : ∀ c ∈ v.constraints, c.check x = true) :
    runValidator ⟨v.options, v.constraints ++ [⟨chk, msg⟩]⟩ s
      = if chk x then .ok x else .error ⟨.constraint, msg⟩ := by
  unfold runValidator
  simp only [hp]
  rw [List.find?_append, find?_all_none hall]
  cases hchk : chk x <;> simp [List.find?, hchk]

theorem normalizeCheck_of_unit {opts : Options} {input : String}
    {v u : String} {unit : TimeUnit}
    (hfull : fullPatternExec (jsTrim input) = some (v, some u))
    (hv : v ≠ "")
    (hget : getTimeUnit u = some unit) :
    normalizeCheck opts input = .ok (ratOfNumLit v * TIME_UNIT_TO_MS unit) := by
  unfold normalizeCheck
  simp only [hfull, hget, if_neg hv]

theorem normalizeCheck_possibleUnit (opts : Options) (input numStr unitString : String)
    (hfp : fullPatternExec (jsTrim input) = none)
    (hpu : possibleUnitExec (jsTrim input) = some (numStr, unitString)) :
    normalizeCheck opts input
      = if optionTruthy opts.invalidUnitError then
          .error ⟨.unit, resolveErrorMessage opts.invalidUnitError
            ("Invalid time unit: " ++ unitString) unitString⟩
        else
          .error ⟨.format, resolveErrorMessage opts.invalidFormatError
            ("Invalid time format: " ++ jsTrim input) (jsTrim input)⟩ := by
  unfold normalizeCheck
  simp only [hfp, hpu]

theorem normalizeCheck_error_kind {opts : Options} {s : String} {i : Issue}
    (hval : ∀ (value : String) (cap : String × Option String),
      fullPatternExec value = some cap → cap.1 ≠ "")
    (h : normalizeCheck opts s = .error i) :
    i.kind = FailKind.format ∨ i.kind = FailKind.unit := by
  unfold normalizeCheck at h
  cases hfp : fullPatternExec (jsTrim s) with
  | none =>
    simp only [hfp] at h
    cases hpu : possibleUnitExec (jsTrim s) with
    | none =>
      simp only [hpu] at h
      injection h with h2
      subst h2
      left; rfl
    | some p =>
      obtain ⟨p1, p2⟩ := p
      simp only [hpu] at h
      split at h
      · injection h with h2; subst h2; right; rfl
      · injection h with h2; subst h2; left; rfl
  | some cap =>
    obtain ⟨valueStr, unitOpt⟩ := cap
    simp only [hfp] at h
    rw [if_neg (hval _ _ hfp)] at h
    cases unitOpt with
    | none => exact absurd h (by simp)
    | some unitStr =>
      cases hgt : getTimeUnit unitStr with
      | none =>
        simp only [hgt] at h
        injection h with h2
        subst h2
        right; rfl
      | some u =>
        simp only [hgt] at h
        exact absurd h (by simp)

/-! ### Helper lemmas: kernel-friendly evaluation of concrete inputs
(the rational arithmetic of the standard library is irreducible for
definitional unfolding, so concrete parses are evaluated in two steps:
the string-processing part by reflexivity, the arithmetic by norm_num) -/

theorem ratTrunc_intCast (n : Int) : ratTrunc ((n : Int) : ℚ) = n := by
  unfold ratTrunc
  rw [Rat.num_intCast, Rat.den_intCast]
  rcases le_or_lt 0 n with h | h
  · rw [if_pos h]
    simp [Int.natAbs_of_nonneg h]
  · rw [if_neg (by omega)]
    simp only [Nat.div_one]
    omega

theorem ratTrunc_eq_of_eq_intCast {q : Rat} {n : Int} (h : q = (n : ℚ)) :
    ratTrunc q = n := by
  rw [h]
  exact ratTrunc_intCast n

theorem parse_eval (input : String) (q : Rat) (n : Int)
    (h1 : normalizeCheck defaultOptions input = Except.ok q)
    (h2 : jsParseInt q = n) :
    parseTimeString defaultOptions input = Except.ok n := by
  unfold parseTimeString
  rw [h1]
  simp [Except.map, h2]

theorem runValidator_eval (v : Validator) (input : String) (n : Int)
    (h1 : parseTimeString v.options input = Except.ok n) :
    runValidator v input
      = (match v.constraints.find? (fun c => ! c.check n) with
         | some c => Except.error ⟨FailKind.constraint, c.message⟩
         | none => Except.ok n) := by
  unfold runValidator
  simp only [h1]

theorem timeStringSchema_no_constraints :
    ∀ x : Int, ∀ c ∈ timeStringSchema.constraints, c.check x = true := by
  intro x c hc
  simp [timeStringSchema] at hc

/-! ### Helper lemmas: concrete parses used by witnesses and examples -/

theorem parse_5s : parseTimeString defaultOptions "5s" = .ok 5000 :=
  parse_eval "5s" (ratOfNumLit "5" * TIME_UNIT_TO_MS TimeUnit.s) 5000 rfl
    (jsParseInt_eq_of_eq_intCast (by
      rw [show ratOfNumLit "5" = ((5 : Nat) : ℚ) from rfl]
      norm_num [TIME_UNIT_TO_MS]) (by decide))

theorem parse_5m : parseTimeString defaultOptions "5m" = .ok 300000 :=
  parse_eval "5m" (ratOfNumLit "5" * TIME_UNIT_TO_MS TimeUnit.m) 300000 rfl
    (jsParseInt_eq_of_eq_intCast (by
      rw [show ratOfNumLit "5" = ((5 : Nat) : ℚ) from rfl]
      norm_num [TIME_UNIT_TO_MS]) (by decide))

theorem parse_neg5s : parseTimeString defaultOptions "-5s" = .ok (-5000) :=
  parse_eval "-5s" (ratOfNumLit "-5" * TIME_UNIT_TO_MS TimeUnit.s) (-5000) rfl
    (jsParseInt_eq_of_eq_intCast (by
      rw [show ratOfNumLit "-5" = -((5 : Nat) : ℚ) from rfl]
      norm_num [TIME_UNIT_TO_MS]) (by decide))

theorem parse_5da : parseTimeString defaultOptions "5da" = .ok 432000000 :=
  parse_eval "5da" (ratOfNumLit "5" * TIME_UNIT_TO_MS TimeUnit.d) 432000000 rfl
    (jsParseInt_eq_of_eq_intCast (by
      rw [show ratOfNumLit "5" = ((5 : Nat) : ℚ) from rfl]
      norm_num [TIME_UNIT_TO_MS]) (by decide))

theorem parse_3mi : parseTimeString defaultOptions "3mi" = .ok 180000 :=
  parse_eval "3mi" (ratOfNumLit "3" * TIME_UNIT_TO_MS TimeUnit.m) 180000 rfl
    (jsParseInt_eq_of_eq_intCast (by
      rw [show ratOfNumLit "3" = ((3 : Nat) : ℚ) from rfl]
      norm_num [TIME_UNIT_TO_MS]) (by decide))

theorem parse_2se : parseTimeString defaultOptions "2se" = .ok 2000 :=
  parse_eval "2se" (ratOfNumLit "2" * TIME_UNIT_TO_MS TimeUnit.s) 2000 rfl
    (jsParseInt_eq_of_eq_intCast (by
      rw [show ratOfNumLit "2" = ((2 : Nat) : ℚ) from rfl]
      norm_num [TIME_UNIT_TO_MS]) (by decide))

theorem parse_neg1h : parseTimeString defaultOptions "-1h" = .ok (-3600000) :=
  parse_eval "-1h" (ratOfNumLit "-1" * TIME_UNIT_TO_MS TimeUnit.h) (-3600000) rfl
    (jsParseInt_eq_of_eq_intCast (by
      rw [show ratOfNumLit "-1" = -((1 : Nat) : ℚ) from rfl]
      norm_num [TIME_UNIT_TO_MS]) (by decide))

theorem parse_15d : parseTimeString defaultOptions "1.5d" = .ok 129600000 :=
  parse_eval "1.5d" (ratOfNumLit "1.5" * TIME_UNIT_TO_MS TimeUnit.d) 129600000 rfl
    (jsParseInt_eq_of_eq_intCast (by
      rw [show ratOfNumLit "1.5"
        = ((1 : Nat) : ℚ) + ((5 : Nat) : ℚ) / (10 : ℚ) ^ (1 : Nat) from rfl]
      norm_num [TIME_UNIT_TO_MS]) (by decide))

theorem parse_dot5m : parseTimeString defaultOptions ".5m" = .ok 30000 :=
  parse_eval ".5m" (ratOfNumLit ".5" * TIME_UNIT_TO_MS TimeUnit.m) 30000 rfl
    (jsParseInt_eq_of_eq_intCast (by
      rw [show ratOfNumLit ".5"
        = ((0 : Nat) : ℚ) + ((5 : Nat) : ℚ) / (10 : ℚ) ^ (1 : Nat) from rfl]
      norm_num [TIME_UNIT_TO_MS]) (by decide))

theorem parse_05ms : parseTimeString defaultOptions "0.5ms" = .ok 0 :=
  parse_eval "0.5ms" (ratOfNumLit "0.5" * TIME_UNIT_TO_MS TimeUnit.ms) 0 rfl
    (by
      have hq : ratOfNumLit "0.5" * TIME_UNIT_TO_MS TimeUnit.ms = 1 / 2 := by
        rw [show ratOfNumLit "0.5"
          = ((0 : Nat) : ℚ) + ((5 : Nat) : ℚ) / (10 : ℚ) ^ (1 : Nat) from rfl]
        norm_num [TIME_UNIT_TO_MS]
      rw [hq, jsParseInt_eq_ratTrunc (by rw [abs_of_pos (by norm_num)]; norm_num)
        (Or.inr (by rw [abs_of_pos (by norm_num)]; norm_num)),
        ratTrunc_of_nonneg (by norm_num)]
      norm_num)

theorem parse_15ms : parseTimeString defaultOptions "1.5ms" = .ok 1 :=
  parse_eval "1.5ms" (ratOfNumLit "1.5" * TIME_UNIT_TO_MS TimeUnit.ms) 1 rfl
    (by
      have hq : ratOfNumLit "1.5" * TIME_UNIT_TO_MS TimeUnit.ms = 3 / 2 := by
        rw [show ratOfNumLit "1.5"
          = ((1 : Nat) : ℚ) + ((5 : Nat) : ℚ) / (10 : ℚ) ^ (1 : Nat) from rfl]
        norm_num [TIME_UNIT_TO_MS]
      rw [hq, jsParseInt_eq_ratTrunc (by rw [abs_of_pos (by norm_num)]; norm_num)
        (Or.inr (by rw [abs_of_pos (by norm_num)]; norm_num)),
        ratTrunc_of_nonneg (by norm_num)]
      norm_num)

theorem val_2h : ratOfNumLit "2" * TIME_UNIT_TO_MS TimeUnit.h = ((7200000 : Int) : ℚ) := by
  rw [show ratOfNumLit "2" = ((2 : Nat) : ℚ) from rfl]
  norm_num [TIME_UNIT_TO_MS]

theorem val_small : ratOfNumLit "0.0000005"
    = Rat.mk' 1 2000000 (by norm_num) (Nat.coprime_one_left _) := by
  have h1 : (Rat.mk' 1 2000000 (by norm_num) (Nat.coprime_one_left _) : ℚ)
      = ((1 : Int) : ℚ) / ((2000000 : Nat) : ℚ) := (Rat.num_div_den _).symm
  refine Eq.trans ?_ h1.symm
  rw [show ratOfNumLit "0.0000005"
    = ((0 : Nat) : ℚ) + ((5 : Nat) : ℚ) / (10 : ℚ) ^ (7 : Nat) from rfl]
  norm_num

theorem parse_small : parseTimeString defaultOptions "0.0000005" = .ok 5 :=
  parse_eval "0.0000005" (ratOfNumLit "0.0000005") 5 rfl
    (by rw [val_small]; decide)

/-! ### Claim theorems -/

/-- Claim C9: the value-kind failure branch is unreachable.  Whenever the
combined value plus unit pattern matches, the captured numeric group is
nonempty, so `parseTimeString` never reports a failure of kind value. -/
theorem spec_C9 :
    (∀ (value : String) (cap : String × Option String),
       fullPatternExec value = some cap → cap.1 ≠ "")
    ∧ (∀ (opts : Options) (s : String) (i : Issue),
       parseTimeString opts s = .error i → i.kind ≠ FailKind.value) := by
  have h1 : ∀ (value : String) (cap : String × Option String),
      fullPatternExec value = some cap → cap.1 ≠ "" := by
    intro value cap h
    simp only [fullPatternExec] at h
    split at h
    · next hlit =>
      have hne := (isNumLit_all hlit).1
      split at h
      · injection h with h2
        subst h2
        intro hcontra
        exact hne (congrArg String.data hcontra)
      · split at h
        · injection h with h2
          subst h2
          intro hcontra
          exact hne (congrArg String.data hcontra)
        · cases h
    · cases h
  refine ⟨h1, ?_⟩
  intro opts s i h
  unfold parseTimeString at h
  cases hnc : normalizeCheck opts s with
  | ok q => rw [hnc] at h; simp [Except.map] at h
  | error i0 =>
    rw [hnc] at h
    simp only [Except.map] at h
    cases h
    rcases normalizeCheck_error_kind h1 hnc with hk | hk <;> simp [hk]

/-- Claim C9 witness: the theorem applied at the concrete input "5m"
(for the pattern part) with its hypothesis discharged by evaluation. -/
theorem spec_C9_witness : ("5" : String) ≠ "" :=
  spec_C9.1 "5m" ("5", some "m") rfl

/-- Claim C10: unit spellings outside the documented alias set are
accepted because each alias regex marks its final letter optional:
"da", "mi" and "se" are not documented aliases, yet they resolve to
day, minute and second, and "5da", "3mi", "2se" parse successfully. -/
theorem spec_C10 :
    (∀ unit : TimeUnit,
       "da" ∉ documentedAliases unit ∧ "mi" ∉ documentedAliases unit
       ∧ "se" ∉ documentedAliases unit)
    ∧ getTimeUnit "da" = some TimeUnit.d
    ∧ runValidator timeStringSchema "5da" = .ok 432000000
    ∧ getTimeUnit "mi" = some TimeUnit.m
    ∧ runValidator timeStringSchema "3mi" = .ok 180000
    ∧ getTimeUnit "se" = some TimeUnit.s
    ∧ runValidator timeStringSchema "2se" = .ok 2000 := by
  exact ⟨by decide, rfl,
    (runValidator_eval timeStringSchema "5da" 432000000 parse_5da).trans rfl, rfl,
    (runValidator_eval timeStringSchema "3mi" 180000 parse_3mi).trans rfl, rfl,
    (runValidator_eval timeStringSchema "2se" 2000 parse_2se).trans rfl⟩

/-- Claim C8: `withErrorMessages` rebuilds a base validator with the
given options and zero constraints, independently of the receiver and
of any constraints previously chained onto it; concretely, rebuilding
from a positive-constrained validator drops the constraint. -/
theorem spec_C8 :
    (∀ (v : Validator) (o : Options),
       withErrorMessages v o = Validator.mk o []
       ∧ (∀ w : Validator, withErrorMessages v o = withErrorMessages w o)
       ∧ (∀ s : String, runValidator (withErrorMessages v o) s = runValidator ⟨o, []⟩ s))
    ∧ runValidator (withErrorMessages (vPositive timeStringSchema none) defaultOptions) "-5s"
        = .ok (-5000)
    ∧ runValidator (vPositive timeStringSchema none) "-5s"
        = .error ⟨.constraint, "Value must be positive"⟩ := by
  exact ⟨fun v o => ⟨rfl, fun w => rfl, fun s => rfl⟩,
    (runValidator_eval (withErrorMessages (vPositive timeStringSchema none) defaultOptions)
      "-5s" (-5000) parse_neg5s).trans rfl,
    (runValidator_eval (vPositive timeStringSchema none) "-5s" (-5000) parse_neg5s).trans rfl⟩

/-- Claim C5: for every parsed value, `positive` rejects exactly the
values below or equal to zero, `negative` rejects exactly the values
above or equal to zero, and `min`/`max` are inclusive at the boundary. -/
theorem spec_C5 :
    ∀ (v : Validator) (p : Option ErrorParam) (s : String) (x k : Int),
    parseTimeString v.options s = .ok x →
    (∀ c ∈ v.constraints, c.check x = true) →
    ((x ≤ 0 → runValidator (vPositive v p) s
        = .error ⟨.constraint, constraintMessage p "Value must be positive"⟩)
     ∧ (0 < x → runValidator (vPositive v p) s = .ok x)
     ∧ (0 ≤ x → runValidator (vNegative v p) s
        = .error ⟨.constraint, constraintMessage p "Value must be negative"⟩)
     ∧ (x < 0 → runValidator (vNegative v p) s = .ok x)
     ∧ (x < k → runValidator (vMin v k p) s
        = .error ⟨.constraint,
            constraintMessage p ("Value must be greater than or equal to " ++ toString k)⟩)
     ∧ (k ≤ x → runValidator (vMin v k p) s = .ok x)
     ∧ (k < x → runValidator (vMax v k p) s
        = .error ⟨.constraint,
            constraintMessage p ("Value must be less than or equal to " ++ toString k)⟩)
     ∧ (x ≤ k → runValidator (vMax v k p) s = .ok x)) := by
  intro v p s x k hp hall
  have epos := runValidator_append_single v s x (fun val => decide (val > 0))
    (constraintMessage p "Value must be positive") hp hall
  have eneg := runValidator_append_single v s x (fun val => decide (val < 0))
    (constraintMessage p "Value must be negative") hp hall
  have emin := runValidator_append_single v s x (fun val => decide (val ≥ k))
    (constraintMessage p ("Value must be greater than or equal to " ++ toString k)) hp hall
  have emax := runValidator_append_single v s x (fun val => decide (val ≤ k))
    (constraintMessage p ("Value must be less than or equal to " ++ toString k)) hp hall
  refine ⟨fun hx => ?_, fun hx => ?_, fun hx => ?_, fun hx => ?_,
    fun hx => ?_, fun hx => ?_, fun hx => ?_, fun hx => ?_⟩
  · rw [if_neg (by simp only [decide_eq_true_eq]; omega)] at epos; exact epos
  · rw [if_pos (by simp only [decide_eq_true_eq]; omega)] at epos; exact epos
  · rw [if_neg (by simp only [decide_eq_true_eq]; omega)] at eneg; exact eneg
  · rw [if_pos (by simp only [decide_eq_true_eq]; omega)] at eneg; exact eneg
  · rw [if_neg (by simp only [decide_eq_true_eq]; omega)] at emin; exact emin
  · rw [if_pos (by simp only [decide_eq_true_eq]; omega)] at emin; exact emin
  · rw [if_neg (by simp only [decide_eq_true_eq]; omega)] at emax; exact emax
  · rw [if_pos (by simp only [decide_eq_true_eq]; omega)] at emax; exact emax

/-- Claim C5 witness: the theorem applied to the base validator and the
input "5s" (parsed value 5000), at bound 1000. -/
theorem spec_C5_witness :
    runValidator (vPositive timeStringSchema none) "5s" = .ok 5000 :=
  ((spec_C5 timeStringSchema none "5s" 5000 1000 parse_5s
    (timeStringSchema_no_constraints 5000)).2.1) (by omega)

/-- Claim C6: a base-parse failure is reported alone (constraints are
not evaluated), and after a successful parse the first failing
constraint in chaining order is the one reported, fail-fast; on
`positive().min(1000)`, the input "-5s" reports the positive failure. -/
theorem spec_C6 :
    (∀ (v : Validator) (s : String) (i : Issue),
       parseTimeString v.options s = .error i → runValidator v s = .error i)
    ∧ (∀ (v : Validator) (s : String) (x : Int) (pre : List Constraint)
         (c : Constraint) (post : List Constraint),
       parseTimeString v.options s = .ok x →
       v.constraints = pre ++ c :: post →
       (∀ c2 ∈ pre, c2.check x = true) →
       c.check x = false →
       runValidator v s = .error ⟨.constraint, c.message⟩)
    ∧ runValidator (vMin (vPositive timeStringSchema none) 1000 none) "-5s"
        = .error ⟨.constraint, "Value must be positive"⟩ := by
  refine ⟨?_, ?_,
    (runValidator_eval (vMin (vPositive timeStringSchema none) 1000 none)
      "-5s" (-5000) parse_neg5s).trans rfl⟩
  · intro v s i h
    unfold runValidator
    simp only [h]
  · intro v s x pre c post hp hcs hpre hc
    unfold runValidator
    simp only [hp, hcs]
    rw [List.find?_append, find?_all_none hpre]
    simp [List.find?_cons, hc]

/-- Claim C6 witness: the theorem applied to the base validator and the
unparsable input "abc". -/
theorem spec_C6_witness :
    runValidator timeStringSchema "abc"
      = .error ⟨.format, "Invalid time format: abc"⟩ :=
  spec_C6.1 timeStringSchema "abc" ⟨.format, "Invalid time format: abc"⟩ rfl

/-- Claim C7: chaining derives a new validator by appending one
constraint, leaving the receiver value intact; with a = base.min(100)
and b = a.max(1), a still accepts every parsed value at or above 100
(no upper bound) and still rejects values below 100, while b rejects
the values above 1 that a accepts. -/
theorem spec_C7 :
    (∀ (v : Validator) (p : Option ErrorParam) (k : Int),
       (vPositive v p).options = v.options
       ∧ (vPositive v p).constraints = v.constraints
           ++ [⟨fun val => decide (val > 0), constraintMessage p "Value must be positive"⟩]
       ∧ (vNegative v p).options = v.options
       ∧ (vNegative v p).constraints = v.constraints
           ++ [⟨fun val => decide (val < 0), constraintMessage p "Value must be negative"⟩]
       ∧ (vMin v k p).options = v.options
       ∧ (vMin v k p).constraints = v.constraints
           ++ [⟨fun val => decide (val ≥ k),
                constraintMessage p ("Value must be greater than or equal to " ++ toString k)⟩]
       ∧ (vMax v k p).options = v.options
       ∧ (vMax v k p).constraints = v.constraints
           ++ [⟨fun val => decide (val ≤ k),
                constraintMessage p ("Value must be less than or equal to " ++ toString k)⟩])
    ∧ (∀ (s : String) (x : Int), parseTimeString defaultOptions s = .ok x →
        (100 ≤ x → runValidator aVal s = .ok x)
        ∧ (x < 100 → runValidator aVal s
            = .error ⟨.constraint, "Value must be greater than or equal to 100"⟩)
        ∧ (100 ≤ x → runValidator bVal s
            = .error ⟨.constraint, "Value must be less than or equal to 1"⟩)) := by
  refine ⟨fun v p k => ⟨rfl, rfl, rfl, rfl, rfl, rfl, rfl, rfl⟩, ?_⟩
  intro s x hp
  have ea := runValidator_append_single timeStringSchema s x
    (fun val => decide (val ≥ 100)) "Value must be greater than or equal to 100" hp
    (timeStringSchema_no_constraints x)
  refine ⟨fun hx => ?_, fun hx => ?_, fun hx => ?_⟩
  · rw [if_pos (by simp only [decide_eq_true_eq]; omega)] at ea; exact ea
  · rw [if_neg (by simp only [decide_eq_true_eq]; omega)] at ea; exact ea
  · have eb := runValidator_append_single aVal s x
      (fun val => decide (val ≤ 1)) "Value must be less than or equal to 1" hp
      (by
        intro c hc
        simp only [aVal, vMin, timeStringSchema, List.nil_append,
          List.mem_singleton] at hc
        subst hc
        simp only [decide_eq_true_eq]
        omega)
    rw [if_neg (by simp only [decide_eq_true_eq]; omega)] at eb
    exact eb

/-- Claim C7 witness: the theorem applied at the concrete input "5m"
(parsed value 300000, far above the bound 1 that b imposes). -/
theorem spec_C7_witness :
    runValidator aVal "5m" = .ok 300000 :=
  ((spec_C7.2 "5m" 300000 parse_5m).1) (by omega)

/-- Claim C2 counterexample: on the default base validator (no custom
error options), "5z" is classified as a format failure with the default
format message, not as a unit failure, because the unit classification
of a failed primary match is guarded by the presence of a custom
invalidUnitError option. -/
theorem spec_C2_counterexample :
    parseTimeString defaultOptions "5z"
      = .error ⟨FailKind.format, "Invalid time format: 5z"⟩
    ∧ FailKind.format ≠ FailKind.unit :=
  ⟨rfl, by decide⟩

/-- Claim C2 (amended): for every validator, "", "abc" and "ms" fail
with kind format and the resolved format message; "5z" and "10invalid"
fail with kind unit and the resolved unit message (offending substring
being the trailing word) exactly when a truthy invalidUnitError spec is
configured (a non-empty string literal, a function, or an object), and
otherwise — no spec, or an empty-string literal, which is falsy — fail
with kind format and the resolved format message. -/
theorem spec_C2_amended :
    (∀ opts : Options,
       parseTimeString opts ""
         = .error ⟨.format,
             resolveErrorMessage opts.invalidFormatError "Invalid time format: " ""⟩
       ∧ parseTimeString opts "abc"
         = .error ⟨.format,
             resolveErrorMessage opts.invalidFormatError "Invalid time format: abc" "abc"⟩
       ∧ parseTimeString opts "ms"
         = .error ⟨.format,
             resolveErrorMessage opts.invalidFormatError "Invalid time format: ms" "ms"⟩)
    ∧ (∀ (opts : Options) (e : ErrorParam),
        opts.invalidUnitError = some e → errorParamTruthy e = true →
       parseTimeString opts "5z"
         = .error ⟨.unit, resolveErrorMessage (some e) "Invalid time unit: z" "z"⟩
       ∧ parseTimeString opts "10invalid"
         = .error ⟨.unit,
             resolveErrorMessage (some e) "Invalid time unit: invalid" "invalid"⟩)
    ∧ (∀ opts : Options, optionTruthy opts.invalidUnitError = false →
       parseTimeString opts "5z"
         = .error ⟨.format,
             resolveErrorMessage opts.invalidFormatError "Invalid time format: 5z" "5z"⟩
       ∧ parseTimeString opts "10invalid"
         = .error ⟨.format,
             resolveErrorMessage opts.invalidFormatError
               "Invalid time format: 10invalid" "10invalid"⟩) := by
  refine ⟨fun opts => ⟨rfl, rfl, rfl⟩, ?_, ?_⟩
  · intro opts e h ht
    have e1 := normalizeCheck_possibleUnit opts "5z" "5" "z" rfl rfl
    have e2 := normalizeCheck_possibleUnit opts "10invalid" "10" "invalid" rfl rfl
    rw [h, if_pos (show optionTruthy (some e) = true from ht)] at e1 e2
    constructor
    · unfold parseTimeString
      rw [e1]
      rfl
    · unfold parseTimeString
      rw [e2]
      rfl
  · intro opts hf
    have e1 := normalizeCheck_possibleUnit opts "5z" "5" "z" rfl rfl
    have e2 := normalizeCheck_possibleUnit opts "10invalid" "10" "invalid" rfl rfl
    rw [if_neg (by simp [hf])] at e1 e2
    constructor
    · unfold parseTimeString
      rw [e1]
      rfl
    · unfold parseTimeString
      rw [e2]
      rfl

/-- Claim C2 witness: the amended theorem applied to a validator with a
literal unit-error spec, on "5z". -/
theorem spec_C2_amended_witness :
    parseTimeString ⟨none, none, some (ErrorParam.str "U")⟩ "5z"
      = .error ⟨.unit,
          resolveErrorMessage (some (ErrorParam.str "U")) "Invalid time unit: z" "z"⟩ :=
  (spec_C2_amended.2.1 ⟨none, none, some (ErrorParam.str "U")⟩ (ErrorParam.str "U")
    rfl (by decide)).1

/-- Claim C3 counterexample: a function spec passed to a constraint is
not honored.  With `positive` given the constant function returning
"CUSTOM", the failing input "-5s" reports the default message "Value
must be positive", not the function's result, because the function is
only stored in the refinement params and never invoked. -/
theorem spec_C3_counterexample :
    runValidator (vPositive timeStringSchema (some (ErrorParam.fn (fun _ => "CUSTOM")))) "-5s"
      = .error ⟨.constraint, "Value must be positive"⟩
    ∧ ("Value must be positive" : String) ≠ "CUSTOM" :=
  ⟨(runValidator_eval (vPositive timeStringSchema (some (ErrorParam.fn (fun _ => "CUSTOM"))))
      "-5s" (-5000) parse_neg5s).trans rfl,
   by decide⟩

/-- Claim C3 (amended): for the three base failure kinds the resolver
honors the full policy (with the caveat that an empty-string literal
falls back to the default, being falsy); for the four constraint kinds
a literal spec and an object spec with a literal message are honored
verbatim, while a function spec (bare or in an object) is stored but
never invoked, so the default message is the one reported. -/
theorem spec_C3_amended :
    (∀ d inv : String, resolveErrorMessage none d inv = d)
    ∧ (∀ s d inv : String, s ≠ "" → resolveErrorMessage (some (ErrorParam.str s)) d inv = s)
    ∧ (∀ d inv : String, resolveErrorMessage (some (ErrorParam.str "")) d inv = d)
    ∧ (∀ (f : String → String) (d inv : String),
        resolveErrorMessage (some (ErrorParam.fn f)) d inv = f inv)
    ∧ (∀ (f : String → String) (d inv : String),
        resolveErrorMessage (some (ErrorParam.objFn f)) d inv = f inv)
    ∧ (∀ m d inv : String, resolveErrorMessage (some (ErrorParam.objStr m)) d inv = m)
    ∧ (∀ s d : String, constraintMessage (some (ErrorParam.str s)) d = s)
    ∧ (∀ m d : String, constraintMessage (some (ErrorParam.objStr m)) d = m)
    ∧ (∀ d : String, constraintMessage none d = d)
    ∧ (∀ (f : String → String) (d : String), constraintMessage (some (ErrorParam.fn f)) d = d)
    ∧ (∀ (f : String → String) (d : String),
        constraintMessage (some (ErrorParam.objFn f)) d = d) := by
  refine ⟨fun d inv => rfl, ?_, fun d inv => rfl, fun f d inv => rfl, fun f d inv => rfl,
    fun m d inv => rfl, fun s d => rfl, fun m d => rfl, fun d => rfl, fun f d => rfl,
    fun f d => rfl⟩
  intro s d inv hs
  show (if s = "" then d else s) = s
  rw [if_neg hs]

/-- Claim C3 witness: the amended theorem applied to a nonempty literal
spec. -/
theorem spec_C3_amended_witness :
    resolveErrorMessage (some (ErrorParam.str "boom")) "default" "x" = "boom" :=
  spec_C3_amended.2.1 "boom" "default" "x" (by decide)

/-- Claim C4 counterexample: the unit-less input "0.0000005" parses to
the fractional millisecond value 5e-7, whose toward-zero truncation is
0, yet the program returns 5: toString renders magnitudes below 10^-6
in exponential notation ("5e-7") and parseInt reads only the mantissa
digit. -/
theorem spec_C4_counterexample :
    runValidator timeStringSchema "0.0000005" = .ok 5
    ∧ ratTrunc (ratOfNumLit "0.0000005") = 0
    ∧ (5 : Int) ≠ 0 :=
  ⟨(runValidator_eval timeStringSchema "0.0000005" 5 parse_small).trans rfl,
   by rw [val_small]; decide,
   by decide⟩

/-- Claim C4 (amended): every successful parse returns jsParseInt of
the rational millisecond value computed by the base check; whenever
that value is zero or its magnitude lies in the plain-decimal toString
range [10^-6, 10^21), this is the toward-zero truncation (the floor
for nonnegative values, the ceiling for nonpositive values) and
fractional milliseconds are discarded, never rounded; outside that
range toString renders exponential notation and parseInt returns only
the leading significant digit. -/
theorem spec_C4_amended :
    ∀ (opts : Options) (s : String) (n : Int),
    parseTimeString opts s = .ok n →
    ∃ q : Rat, normalizeCheck opts s = .ok q ∧ n = jsParseInt q
      ∧ (|q| < 10 ^ 21 → (q = 0 ∨ 1 / 10 ^ 6 ≤ |q|) →
          n = ratTrunc q ∧ (0 ≤ q → n = ⌊q⌋) ∧ (q ≤ 0 → n = ⌈q⌉)) := by
  intro opts s n h
  unfold parseTimeString at h
  cases hnc : normalizeCheck opts s with
  | error i =>
    rw [hnc] at h
    exact absurd h (by simp [Except.map])
  | ok q =>
    rw [hnc] at h
    simp only [Except.map] at h
    injection h with h2
    refine ⟨q, rfl, h2.symm, fun hb hs => ?_⟩
    have ht := jsParseInt_eq_ratTrunc hb hs
    refine ⟨by rw [← h2, ht], fun hq => ?_, fun hq => ?_⟩
    · rw [← h2, ht, ratTrunc_of_nonneg hq]
    · rw [← h2, ht, ratTrunc_of_nonpos hq]

/-- Claim C4 witness: the amended theorem applied to the input "1.5ms",
whose millisecond value 1.5 lies in the plain range and truncates to 1. -/
theorem spec_C4_amended_witness :
    ∃ q : Rat, normalizeCheck defaultOptions "1.5ms" = .ok q ∧ (1 : Int) = jsParseInt q
      ∧ (|q| < 10 ^ 21 → (q = 0 ∨ 1 / 10 ^ 6 ≤ |q|) →
          (1 : Int) = ratTrunc q ∧ (0 ≤ q → (1 : Int) = ⌊q⌋)
          ∧ (q ≤ 0 → (1 : Int) = ⌈q⌉)) :=
  spec_C4_amended defaultOptions "1.5ms" 1 parse_15ms

/-- Claim C1 counterexample: parse("0.5ms") returns 0, but 0.5 times
the millisecond multiplier is one half, so the result of a parse is not
in general the product of the magnitude and the multiplier. -/
theorem spec_C1_counterexample :
    runValidator timeStringSchema "0.5ms" = .ok 0
    ∧ ratOfNumLit "0.5" * TIME_UNIT_TO_MS TimeUnit.ms ≠ ((0 : Int) : ℚ) := by
  constructor
  · exact (runValidator_eval timeStringSchema "0.5ms" 0 parse_05ms).trans rfl
  · rw [show ratOfNumLit "0.5"
      = ((0 : Nat) : ℚ) + ((5 : Nat) : ℚ) / (10 : ℚ) ^ (1 : Nat) from rfl]
    norm_num [TIME_UNIT_TO_MS]

/-- Claim C1 (amended): for every unit, every documented alias, every
decimal magnitude whose millisecond product is zero or of magnitude in
the plain-decimal toString range [10^-6, 10^21), every ASCII case
variant of the alias, and arbitrary surrounding (and internal)
whitespace, parse returns the toward-zero truncation of the magnitude
times the unit multiplier (equal to the product itself whenever the
product is an integer); in particular parse("-1h") = -3600000,
parse("1.5d") = 129600000 and parse(".5m") = 30000. -/
theorem spec_C1_amended :
    (∀ (unit : TimeUnit) (al : String), al ∈ documentedAliases unit →
     ∀ vs : String, isNumLit vs.data = true →
     |ratOfNumLit vs * TIME_UNIT_TO_MS unit| < 10 ^ 21 →
     (ratOfNumLit vs * TIME_UNIT_TO_MS unit = 0
       ∨ 1 / 10 ^ 6 ≤ |ratOfNumLit vs * TIME_UNIT_TO_MS unit|) →
     ∀ aUp : String, toLowerStr aUp = al →
     ∀ w1 w2 w3 : String,
       (∀ c ∈ w1.data, isWsChar c = true) →
       (∀ c ∈ w2.data, isWsChar c = true) →
       (∀ c ∈ w3.data, isWsChar c = true) →
       runValidator timeStringSchema (w1 ++ vs ++ w2 ++ aUp ++ w3)
         = .ok (ratTrunc (ratOfNumLit vs * TIME_UNIT_TO_MS unit)))
    ∧ runValidator timeStringSchema "-1h" = .ok (-3600000)
    ∧ runValidator timeStringSchema "1.5d" = .ok 129600000
    ∧ runValidator timeStringSchema ".5m" = .ok 30000 := by
  refine ⟨?_,
    (runValidator_eval timeStringSchema "-1h" (-3600000) parse_neg1h).trans rfl,
    (runValidator_eval timeStringSchema "1.5d" 129600000 parse_15d).trans rfl,
    (runValidator_eval timeStringSchema ".5m" 30000 parse_dot5m).trans rfl⟩
  intro unit al hal vs hvs hb hs aUp hlow w1 w2 w3 hw1 hw2 hw3
  obtain ⟨hal_ne, hal_low⟩ := documented_alias_shape unit al hal
  have hres := documented_alias_resolves unit al hal
  obtain ⟨⟨cu, tu, hu_eq, hu_ws, hu_num⟩, ⟨cl, tl, hrev_eq, hl_ws⟩⟩ :=
    aUp_facts hlow hal_ne hal_low
  obtain ⟨hv_ne, hv_all⟩ := isNumLit_all hvs
  obtain ⟨cv, tv, hv_eq⟩ := List.exists_cons_of_ne_nil hv_ne
  have hcv_num : isNumChar cv = true :=
    hv_all cv (by rw [hv_eq]; exact List.mem_cons_self _ _)
  have hcv_ws : isWsChar cv = false := not_isWsChar_of_isNumChar hcv_num
  have hget : getTimeUnit aUp = some unit := by
    unfold getTimeUnit
    rw [hlow]
    exact hres
  have hdata : (w1 ++ vs ++ w2 ++ aUp ++ w3).data
      = (w1.data ++ ((vs.data ++ w2.data) ++ aUp.data)) ++ w3.data := by
    simp [String.data_append, List.append_assoc]
  have hmid_head : ∃ c t,
      (vs.data ++ w2.data) ++ aUp.data = c :: t ∧ isWsChar c = false :=
    ⟨cv, (tv ++ w2.data) ++ aUp.data, by rw [hv_eq]; simp, hcv_ws⟩
  have hmid_last : ∃ c t,
      ((vs.data ++ w2.data) ++ aUp.data).reverse = c :: t ∧ isWsChar c = false :=
    ⟨cl, tl ++ (vs.data ++ w2.data).reverse,
     by rw [List.reverse_append, hrev_eq]; simp, hl_ws⟩
  have e1 : trimList ((w1 ++ vs ++ w2 ++ aUp ++ w3)).data
      = (vs.data ++ w2.data) ++ aUp.data := by
    rw [hdata]
    exact trimList_eq hw1 hw3 hmid_head hmid_last
  have htrim : jsTrim (w1 ++ vs ++ w2 ++ aUp ++ w3)
      = (⟨(vs.data ++ w2.data) ++ aUp.data⟩ : String) :=
    congrArg (fun l => (⟨l⟩ : String)) e1
  have hfull : fullPatternExec (jsTrim (w1 ++ vs ++ w2 ++ aUp ++ w3))
      = some (vs, some aUp) := by
    rw [htrim]
    exact fullPatternExec_split hvs hw2 ⟨cu, tu, hu_eq, hu_ws, hu_num⟩
      (by rw [show (⟨aUp.data⟩ : String) = aUp from rfl, hget]; rfl)
  have hv_ne' : vs ≠ "" := by
    intro hc
    exact hv_ne (congrArg String.data hc)
  have hcheck : normalizeCheck defaultOptions (w1 ++ vs ++ w2 ++ aUp ++ w3)
      = .ok (ratOfNumLit vs * TIME_UNIT_TO_MS unit) :=
    normalizeCheck_of_unit hfull hv_ne' hget
  have hparse : parseTimeString defaultOptions (w1 ++ vs ++ w2 ++ aUp ++ w3)
      = .ok (ratTrunc (ratOfNumLit vs * TIME_UNIT_TO_MS unit)) := by
    unfold parseTimeString
    rw [hcheck]
    simp only [Except.map]
    rw [jsParseInt_eq_ratTrunc hb hs]
  exact (runValidator_eval timeStringSchema (w1 ++ vs ++ w2 ++ aUp ++ w3)
    (ratTrunc (ratOfNumLit vs * TIME_UNIT_TO_MS unit)) hparse).trans rfl

/-- Claim C1 witness: the amended theorem applied to the magnitude "2",
the uppercase alias variant "H" of the hour alias "h", and a single
internal space. -/
theorem spec_C1_amended_witness :
    runValidator timeStringSchema ("" ++ "2" ++ " " ++ "H" ++ "")
      = .ok (ratTrunc (ratOfNumLit "2" * TIME_UNIT_TO_MS TimeUnit.h)) :=
  spec_C1_amended.1 TimeUnit.h "h" (by decide) "2" (by decide)
    (by rw [val_2h]; exact (abs_intCast_bounds (by decide) (by decide)).1)
    (Or.inr (by rw [val_2h]; exact (abs_intCast_bounds (by decide) (by decide)).2))
    "H" (by decide) "" " " "" (by decide) (by decide) (by decide)

end ZodTimeString
